import Mathlib

/-
Shallow embedding of the picoclaw provider layer
(pkg/providers/claude_provider.go and pkg/providers/codex_provider.go,
the latter reproduced in pkg/providers/IMPLEMENTATION_SUMMARY.md).

Conventions:
- Go strings are Lean Strings; a Go nil/absent optional string is "".
- Go `map[string]interface{}` values decoded from JSON are modelled by
  `ArgsMap` (an association list of JSON values); `json.Unmarshal` into
  such a map is standard-library code and is therefore modelled as an
  oracle `JsonDecoder : String -> Option ArgsMap` (`none` = decode error,
  which also stands for Go leaving the destination map nil).
- `json.Marshal` of an arguments map is likewise an oracle
  `JsonEncoder : Option ArgsMap -> String`.
- External collaborators living outside the providers package (the
  `auth` package, the macOS `security` command, the Azure identity
  SDK, environment variables) are modelled as
  explicit world/environment records passed to the embedded functions,
  so that "which source was consulted" is observable via call counts.
-/

/-- A decoded JSON value (only the shapes the provider code inspects). -/
inductive JsonVal where
  | str : String → JsonVal
  | num : Int → JsonVal
  | boolean : Bool → JsonVal
  | null : JsonVal
  | obj : List (String × JsonVal) → JsonVal

/-- A decoded JSON object, Go `map[string]interface{}`. -/
abbrev ArgsMap := List (String × JsonVal)

/-- Oracle for `json.Unmarshal` into `map[string]interface{}`:
`none` means the payload is not a valid JSON object. -/
abbrev JsonDecoder := String → Option ArgsMap

/-- Oracle for `json.Marshal` of the arguments of a tool call. -/
abbrev JsonEncoder := Option ArgsMap → String

/-- Canonical tool call (providers.ToolCall). `arguments = none` models a
nil Go map. -/
structure ToolCall where
  id : String
  name : String
  arguments : Option ArgsMap

/-- Canonical message (providers.Message). Absent ToolCallID is "". -/
structure Message where
  role : String
  content : String
  toolCallID : String
  toolCalls : List ToolCall

/-- providers.UsageInfo. -/
structure UsageInfo where
  promptTokens : Int
  completionTokens : Int
  totalTokens : Int
deriving DecidableEq

/-- providers.LLMResponse. `usage = none` models a nil Usage pointer. -/
structure LLMResponse where
  content : String
  toolCalls : List ToolCall
  finishReason : String
  usage : Option UsageInfo

/-- providers.ToolFunctionDefinition. -/
structure ToolFunctionDefinition where
  name : String
  description : String
  parameters : ArgsMap

/-- providers.ToolDefinition. -/
structure ToolDefinition where
  type : String
  function : ToolFunctionDefinition

/-- The `options map[string]interface{}` argument of Chat, restricted to
the two keys the providers read (with the type assertions they make). -/
structure ChatOptions where
  maxTokens : Option Int
  temperature : Option Rat

/-- Argument decoding shared by the Claude and Codex normalizers: parse
the payload as JSON; on failure wrap the raw payload under a "raw" key
(claude_provider.go parseClaudeResponse / codex parseCodexResponse). -/
def wrapArgs (dec : JsonDecoder) (payload : String) : ArgsMap :=
  match dec payload with
  | some a => a
  | none => [("raw", JsonVal.str payload)]

/-- One content block of an Anthropic message response. For a "text"
block only `text` is relevant; for a "tool_use" block `id`, `name` and
the raw JSON `input` are. -/
structure ContentBlock where
  type : String
  text : String
  id : String
  name : String
  input : String

/-- Anthropic usage record (resp.Usage). -/
structure ClaudeUsage where
  inputTokens : Int
  outputTokens : Int

/-- The Anthropic SDK message (the fields parseClaudeResponse reads). -/
structure ClaudeMessageResp where
  content : List ContentBlock
  stopReason : String
  usage : ClaudeUsage

/-- Text concatenation over Claude content blocks, in emission order
(the "text" arm of the loop in parseClaudeResponse). -/
def claudeContentText : List ContentBlock → String
  | [] => ""
  | b :: rest =>
    (if b.type = "text" then b.text else "") ++ claudeContentText rest

/-- Tool-call extraction over Claude content blocks (the "tool_use" arm
of the loop in parseClaudeResponse). -/
def claudeToolCalls (dec : JsonDecoder) : List ContentBlock → List ToolCall
  | [] => []
  | b :: rest =>
    if b.type = "tool_use" then
      ⟨b.id, b.name, some (wrapArgs dec b.input)⟩ :: claudeToolCalls dec rest
    else
      claudeToolCalls dec rest

/-- Stop-reason mapping of parseClaudeResponse: initialized to "stop",
then a switch on tool_use / max_tokens / end_turn. -/
def claudeFinishReason (stopReason : String) : String :=
  if stopReason = "tool_use" then "tool_calls"
  else if stopReason = "max_tokens" then "length"
  else if stopReason = "end_turn" then "stop"
  else "stop"

/-- claude_provider.go parseClaudeResponse: concatenate text blocks,
extract tool_use blocks (raw-wrapping bad JSON), map the stop reason,
and always populate Usage from input/output token counts. -/
def parseClaudeResponse (dec : JsonDecoder) (resp : ClaudeMessageResp) : LLMResponse :=
  { content := claudeContentText resp.content
    toolCalls := claudeToolCalls dec resp.content
    finishReason := claudeFinishReason resp.stopReason
    usage := some
      { promptTokens := resp.usage.inputTokens
        completionTokens := resp.usage.outputTokens
        totalTokens := resp.usage.inputTokens + resp.usage.outputTokens } }

/-- One item of an OpenAI Responses-API output. For a "message" item
`content` is its list of (part-type, text) parts; for a "function_call"
item `callId`, `name` and the raw `arguments` string are relevant. -/
structure OutputItem where
  type : String
  content : List (String × String)
  callId : String
  name : String
  arguments : String

/-- OpenAI Responses-API usage record (resp.Usage). -/
structure CodexUsage where
  inputTokens : Int
  outputTokens : Int
  totalTokens : Int

/-- The OpenAI Responses-API response (the fields parseCodexResponse
reads). -/
structure CodexResponse where
  output : List OutputItem
  status : String
  usage : CodexUsage

/-- Text concatenation over Responses-API output items: the "message"
arm of parseCodexResponse appends every "output_text" part. -/
def codexOutputText : List OutputItem → String
  | [] => ""
  | item :: rest =>
    (if item.type = "message" then
      (item.content.map (fun c => if c.1 = "output_text" then c.2 else "")).foldl (· ++ ·) ""
    else "") ++ codexOutputText rest

/-- Tool-call extraction of parseCodexResponse: one ToolCall per
"function_call" item, raw-wrapping arguments that fail to decode. -/
def codexOutputToolCalls (dec : JsonDecoder) : List OutputItem → List ToolCall
  | [] => []
  | item :: rest =>
    if item.type = "function_call" then
      ⟨item.callId, item.name, some (wrapArgs dec item.arguments)⟩ :: codexOutputToolCalls dec rest
    else
      codexOutputToolCalls dec rest

/-- Finish-reason logic of parseCodexResponse: "stop", overridden to
"tool_calls" when tool calls were extracted, overridden to "length"
when the response status is "incomplete". -/
def codexFinishReason (toolCalls : List ToolCall) (status : String) : String :=
  if status = "incomplete" then "length"
  else if toolCalls.isEmpty then "stop"
  else "tool_calls"

/-- codex_provider.go parseCodexResponse. Usage is populated only when
the reported total token count is positive. -/
def parseCodexResponse (dec : JsonDecoder) (resp : CodexResponse) : LLMResponse :=
  { content := codexOutputText resp.output
    toolCalls := codexOutputToolCalls dec resp.output
    finishReason := codexFinishReason (codexOutputToolCalls dec resp.output) resp.status
    usage :=
      if resp.usage.totalTokens > 0 then
        some
          { promptTokens := resp.usage.inputTokens
            completionTokens := resp.usage.outputTokens
            totalTokens := resp.usage.totalTokens }
      else none }

/-- The function part of an OpenAI chat-completion tool call. -/
structure ChatToolCallFunction where
  name : String
  arguments : String

/-- An OpenAI chat-completion tool call. -/
structure ChatToolCall where
  id : String
  function : ChatToolCallFunction

/-- An OpenAI chat-completion assistant message. -/
structure ChatMessage where
  content : String
  toolCalls : List ChatToolCall

/-- One choice of an OpenAI chat completion. -/
structure ChatChoice where
  message : ChatMessage
  finishReason : String

/-- OpenAI chat-completion usage record. -/
structure ChatUsage where
  promptTokens : Int
  completionTokens : Int
  totalTokens : Int

/-- The OpenAI chat completion (the fields parseChatCompletionResponse
reads). -/
structure ChatCompletion where
  choices : List ChatChoice
  usage : ChatUsage

/-- Argument handling of parseChatCompletionResponse: `json.Unmarshal`
is only attempted on a non-empty payload and its error is ignored, so a
payload that fails to decode leaves the Go map nil (here `none`). -/
def chatToolCallArgs (dec : JsonDecoder) (payload : String) : Option ArgsMap :=
  if payload ≠ "" then dec payload else none

/-- codex_provider.go parseChatCompletionResponse (Azure chat
completions): empty choice list short-circuits to an "error" response;
otherwise the first choice is normalized, the backend finish reason is
passed through as-is, and Usage is populated only for a positive total. -/
def parseChatCompletionResponse (dec : JsonDecoder) (resp : ChatCompletion) : LLMResponse :=
  match resp.choices with
  | [] => { content := "", toolCalls := [], finishReason := "error", usage := none }
  | choice :: _ =>
    { content := choice.message.content
      toolCalls :=
        choice.message.toolCalls.map
          (fun tc => ⟨tc.id, tc.function.name, chatToolCallArgs dec tc.function.arguments⟩)
      finishReason := choice.finishReason
      usage :=
        if resp.usage.totalTokens > 0 then
          some
            { promptTokens := resp.usage.promptTokens
              completionTokens := resp.usage.completionTokens
              totalTokens := resp.usage.totalTokens }
        else none }

/-- One item of the Responses-API input list built by buildCodexParams. -/
inductive InputItem where
  | message (role content : String)
  | functionCall (callId name arguments : String)
  | functionCallOutput (callId output : String)

/-- The input items contributed by one canonical message in the loop of
buildCodexParams (the "system" case contributes none: it only sets the
instructions accumulator). -/
def messageInputItems (enc : JsonEncoder) (msg : Message) : List InputItem :=
  if msg.role = "system" then []
  else if msg.role = "user" then
    if msg.toolCallID ≠ "" then [.functionCallOutput msg.toolCallID msg.content]
    else [.message "user" msg.content]
  else if msg.role = "assistant" then
    if msg.toolCalls.isEmpty then [.message "assistant" msg.content]
    else
      (if msg.content ≠ "" then [.message "assistant" msg.content] else []) ++
        msg.toolCalls.map (fun tc => .functionCall tc.id tc.name (enc tc.arguments))
  else if msg.role = "tool" then [.functionCallOutput msg.toolCallID msg.content]
  else []

/-- The full input list of buildCodexParams. -/
def codexInputItems (enc : JsonEncoder) (messages : List Message) : List InputItem :=
  (messages.map (messageInputItems enc)).flatten

/-- The `instructions` accumulator of the buildCodexParams loop: every
"system" message overwrites it with the content of that message. -/
def codexInstructionsAcc (messages : List Message) (acc : String) : String :=
  match messages with
  | [] => acc
  | m :: rest => codexInstructionsAcc rest (if m.role = "system" then m.content else acc)

/-- The constant defaultCodexInstructions of codex_provider.go. -/
def defaultCodexInstructions : String := "You are Codex, a coding assistant."

/-- A Responses-API function tool (translateToolsForCodex). -/
structure CodexTool where
  name : String
  parameters : ArgsMap
  strict : Bool
  description : Option String

/-- codex_provider.go translateToolsForCodex. -/
def translateToolsForCodex (tools : List ToolDefinition) : List CodexTool :=
  tools.map (fun t =>
    { name := t.function.name
      parameters := t.function.parameters
      strict := false
      description :=
        if t.function.description ≠ "" then some t.function.description else none })

/-- The Responses-API request built by buildCodexParams (the fields the
Go code sets). -/
structure CodexParams where
  model : String
  input : List InputItem
  store : Bool
  instructions : String
  maxOutputTokens : Option Int
  temperature : Option Rat
  tools : List CodexTool

/-- codex_provider.go buildCodexParams: translate the canonical message
list to Responses-API input items, set instructions from the (last)
system message or substitute the default, and map options. -/
def buildCodexParams (enc : JsonEncoder) (messages : List Message)
    (tools : List ToolDefinition) (model : String) (options : ChatOptions) : CodexParams :=
  { model := model
    input := codexInputItems enc messages
    store := false
    instructions :=
      if codexInstructionsAcc messages "" ≠ "" then codexInstructionsAcc messages ""
      else defaultCodexInstructions
    maxOutputTokens := options.maxTokens
    temperature := options.temperature
    tools := translateToolsForCodex tools }

/-- providers.TokenManagerConfig. -/
structure TokenManagerConfig where
  verbose : Bool
  account : String

/-- providers.ClaudeCredentials. -/
structure ClaudeCredentials where
  apiKey : String
  mcpOAuthTokens : ArgsMap
  sessionToken : String

/-- A persisted credential of the auth package (auth.Credential): the
fields the providers read. `needsRefresh` records the result of the
NeedsRefresh() expiry-window check of the auth package, which lives outside
this package. -/
structure AuthCredential where
  accessToken : String
  refreshToken : String
  accountID : String
  authMethod : String
  needsRefresh : Bool
deriving DecidableEq

/-- The ambient world read by the Claude token source: the direct-secret
environment variable, the operating system name, the macOS keychain (the
`security` subprocess, an oracle from (service, account) to the stored
password, "" when absent), a JSON decoder for the keychain credentials
blob, and the credential the auth package stores for "anthropic". -/
structure TokenEnv where
  anthropicApiKey : String
  goos : String
  keychain : String → String → String
  credsDecode : JsonDecoder
  authCred : Except String (Option AuthCredential)

/-- Instrumentation: how many keychain queries and auth-package loads a
resolution performed. -/
structure SourceCounts where
  keychainCalls : Nat
  authCalls : Nat
deriving DecidableEq

/-- Association-list lookup on a decoded JSON object (Go map indexing). -/
def argsLookup (m : ArgsMap) (key : String) : Option JsonVal :=
  match m with
  | [] => none
  | (k, v) :: rest => if k = key then some v else argsLookup rest key

/-- claude_provider.go extractAPIKeyFromMCPCredentials: a direct
"apiKey" string, else the "apiKey" string of a nested "anthropic" object,
else "". -/
def extractAPIKeyFromMCPCredentials (data : ArgsMap) : String :=
  match argsLookup data "apiKey" with
  | some (JsonVal.str s) => s
  | _ =>
    match argsLookup data "anthropic" with
    | some (JsonVal.obj inner) =>
      match argsLookup inner "apiKey" with
      | some (JsonVal.str s) => s
      | _ => ""
    | _ => ""

/-- The keychain services probed for a direct API key, in order
(claude_provider.go keychainServices). -/
def keychainServices : List String := ["Anthropic", "Agency", "Claude Code"]

/-- The service-scan loop of getClaudeCredentialsFromKeychain: query
each service once, in order, until one yields a secret with the
"sk-ant-" shape; a non-matching secret is skipped, not fatal. Returns
the winning key (if any) and the number of keychain queries made. -/
def keychainServiceScan (env : TokenEnv) (account : String) :
    List String → Option String × Nat
  | [] => (none, 0)
  | service :: rest =>
    let secret := env.keychain service account
    if secret ≠ "" ∧ secret.startsWith "sk-ant-" then (some secret, 1)
    else
      let (found, n) := keychainServiceScan env account rest
      (found, n + 1)

/-- The structured-credentials probe of getClaudeCredentialsFromKeychain
("Claude Code-credentials" then "Claude Safe Storage"), applied after
the service scan found no direct key. Returns the credentials record and
the two keychain queries it makes. -/
def keychainStructuredProbe (env : TokenEnv) (account : String) :
    ClaudeCredentials × Nat :=
  let credsJSON := env.keychain "Claude Code-credentials" account
  let afterCreds : ClaudeCredentials :=
    if credsJSON ≠ "" then
      match env.credsDecode credsJSON with
      | some credsData =>
        { apiKey := extractAPIKeyFromMCPCredentials credsData
          mcpOAuthTokens :=
            match argsLookup credsData "mcpOAuth" with
            | some (JsonVal.obj m) => m
            | _ => []
          sessionToken := "" }
      | none => { apiKey := "", mcpOAuthTokens := [], sessionToken := "" }
    else { apiKey := "", mcpOAuthTokens := [], sessionToken := "" }
  let safeStorage := env.keychain "Claude Safe Storage" ""
  let final : ClaudeCredentials :=
    if safeStorage ≠ "" ∧ afterCreds.apiKey = "" then
      { afterCreds with sessionToken := safeStorage }
    else afterCreds
  (final, 2)

/-- claude_provider.go getClaudeCredentialsFromKeychain, instrumented
with the number of keychain queries it performs. Off macOS it returns
empty credentials without touching the keychain. -/
def getClaudeCredentialsFromKeychain (config : TokenManagerConfig) (env : TokenEnv) :
    ClaudeCredentials × Nat :=
  if env.goos ≠ "darwin" then
    ({ apiKey := "", mcpOAuthTokens := [], sessionToken := "" }, 0)
  else
    match keychainServiceScan env config.account keychainServices with
    | (some key, n) => ({ apiKey := key, mcpOAuthTokens := [], sessionToken := "" }, n)
    | (none, n) =>
      let (creds, m) := keychainStructuredProbe env config.account
      (creds, n + m)

/-- claude_provider.go createDynamicTokenSource: the three-rung fallback
(environment variable, macOS keychain, auth package), instrumented with
how many times each lower-priority source was consulted. -/
def createDynamicTokenSource (config : TokenManagerConfig) (env : TokenEnv) :
    Except String String × SourceCounts :=
  if env.anthropicApiKey ≠ "" then (Except.ok env.anthropicApiKey, ⟨0, 0⟩)
  else
    let keychainStep : Option String × Nat :=
      if env.goos = "darwin" then
        let (creds, n) := getClaudeCredentialsFromKeychain config env
        (if creds.apiKey ≠ "" then some creds.apiKey else none, n)
      else (none, 0)
    match keychainStep with
    | (some key, n) => (Except.ok key, ⟨n, 0⟩)
    | (none, n) =>
      match env.authCred with
      | Except.error e => (Except.error ("loading auth credentials: " ++ e), ⟨n, 1⟩)
      | Except.ok none =>
        (Except.error "no credentials for anthropic. Run: picoclaw auth login --provider anthropic", ⟨n, 1⟩)
      | Except.ok (some cred) => (Except.ok cred.accessToken, ⟨n, 1⟩)

/-- The ambient world read by the Codex token sources: the auth
credential the auth package stores for "openai", its OAuth refresh round-trip,
and its persist operation (auth.GetCredential / auth.RefreshAccessToken
/ auth.SetCredential — collaborators outside the providers package). -/
structure CodexAuthWorld where
  getCredential : Except String (Option AuthCredential)
  refreshAccessToken : AuthCredential → Except String AuthCredential
  setCredential : AuthCredential → Except String Unit

/-- The observable outcome of one Codex token resolution: the returned
(access token, account ID) or error, how many refresh round-trips were
performed, and which credential (if any) was persisted to the store. -/
structure CodexSourceResult where
  result : Except String (String × String)
  refreshCalls : Nat
  stored : Option AuthCredential

/-- codex_provider.go createCodexTokenSource: load the "openai"
credential; when it is OAuth, inside its refresh window and holds a
refresh token, refresh once and persist before returning the refreshed
values; otherwise return the stored values as-is. -/
def createCodexTokenSource (w : CodexAuthWorld) : CodexSourceResult :=
  match w.getCredential with
  | Except.error e =>
    { result := Except.error ("loading auth credentials: " ++ e), refreshCalls := 0, stored := none }
  | Except.ok none =>
    { result := Except.error "no credentials for openai. Run: picoclaw auth login --provider openai"
      refreshCalls := 0, stored := none }
  | Except.ok (some cred) =>
    if cred.authMethod = "oauth" ∧ cred.needsRefresh ∧ cred.refreshToken ≠ "" then
      match w.refreshAccessToken cred with
      | Except.error e =>
        { result := Except.error ("refreshing token: " ++ e), refreshCalls := 1, stored := none }
      | Except.ok refreshed =>
        match w.setCredential refreshed with
        | Except.error e =>
          { result := Except.error ("saving refreshed token: " ++ e), refreshCalls := 1, stored := none }
        | Except.ok _ =>
          { result := Except.ok (refreshed.accessToken, refreshed.accountID)
            refreshCalls := 1, stored := some refreshed }
    else
      { result := Except.ok (cred.accessToken, cred.accountID), refreshCalls := 0, stored := none }

/-- providers.AzureConfig. -/
structure AzureConfig where
  endpoint : String
  deployment : String
  apiVersion : String
  scope : String
  managedIdentityID : String
  useManagedIdentity : Bool
  verbose : Bool
deriving DecidableEq

/-- The Azure-related environment variables read by
LoadAzureConfigFromEnv (each "" when unset). -/
structure AzureEnv where
  endpoint : String
  deployment : String
  apiVersion : String
  scope : String
  managedIdentityID : String
  verbose : String

/-- The missing-variable list accumulated by LoadAzureConfigFromEnv, in
its append order. -/
def azureMissingVars (env : AzureEnv) : List String :=
  (if env.endpoint = "" then ["AZURE_OPENAI_ENDPOINT"] else []) ++
  (if env.deployment = "" then ["AZURE_OPENAI_DEPLOYMENT"] else []) ++
  (if env.apiVersion = "" then ["AZURE_OPENAI_API_VERSION"] else []) ++
  (if env.scope = "" then ["AZURE_OPENAI_SCOPE"] else [])

/-- The error message LoadAzureConfigFromEnv formats from the missing
list (Go fmt %v of a string slice). -/
def azureMissingMessage (missing : List String) : String :=
  "missing required Azure OpenAI environment variables: [" ++
    String.intercalate " " missing ++
    "]\nPlease set them in your .env file. See .env.example for reference"

/-- codex_provider.go LoadAzureConfigFromEnv: `ok none` is the
"not using Azure" outcome. The presence probe looks only at endpoint,
deployment and API version; when any of those is set, all four required
variables must be set or the load fails naming the missing ones. -/
def LoadAzureConfigFromEnv (env : AzureEnv) : Except String (Option AzureConfig) :=
  if env.endpoint = "" ∧ env.deployment = "" ∧ env.apiVersion = "" then Except.ok none
  else if azureMissingVars env ≠ [] then
    Except.error (azureMissingMessage (azureMissingVars env))
  else
    Except.ok (some
      { endpoint := env.endpoint
        deployment := env.deployment
        apiVersion := env.apiVersion
        scope := env.scope
        managedIdentityID := env.managedIdentityID
        useManagedIdentity := true
        verbose := env.verbose = "true" })

/-- createAzureManagedIdentityTokenSource reaches into the Azure
identity SDK; its outcome is modelled as an oracle value handed to the
dynamic source. -/
abbrev AzureTokenOutcome := Except String String

/-- codex_provider.go createDynamicCodexTokenSource: try Azure managed
identity first when configured (non-fatal on failure or empty token),
then the same auth-package OAuth/refresh/static logic as
createCodexTokenSource. -/
def createDynamicCodexTokenSource (azureConfig : Option AzureConfig)
    (azureToken : AzureTokenOutcome) (w : CodexAuthWorld) : CodexSourceResult :=
  let azureHit : Option String :=
    match azureConfig with
    | some cfg =>
      if cfg.useManagedIdentity then
        match azureToken with
        | Except.ok t => if t ≠ "" then some t else none
        | Except.error _ => none
      else none
    | none => none
  match azureHit with
  | some t => { result := Except.ok (t, ""), refreshCalls := 0, stored := none }
  | none =>
    match w.getCredential with
    | Except.error e =>
      { result := Except.error ("loading auth credentials: " ++ e), refreshCalls := 0, stored := none }
    | Except.ok none =>
      { result := Except.error "no credentials for openai. Run: picoclaw auth login --provider openai"
        refreshCalls := 0, stored := none }
    | Except.ok (some cred) =>
      if cred.authMethod = "oauth" ∧ cred.needsRefresh ∧ cred.refreshToken ≠ "" then
        match w.refreshAccessToken cred with
        | Except.error e =>
          { result := Except.error ("refreshing token: " ++ e), refreshCalls := 1, stored := none }
        | Except.ok refreshed =>
          match w.setCredential refreshed with
          | Except.error e =>
            { result := Except.error ("saving refreshed token: " ++ e), refreshCalls := 1, stored := none }
          | Except.ok _ =>
            { result := Except.ok (refreshed.accessToken, refreshed.accountID)
              refreshCalls := 1, stored := some refreshed }
      else
        { result := Except.ok (cred.accessToken, cred.accountID), refreshCalls := 0, stored := none }

/-- One request option attached to an outbound SDK call (the
option.WithAPIKey / WithHeader / WithQuery / WithBaseURL calls). -/
inductive RequestOption where
  | apiKey (key : String)
  | header (name value : String)
  | query (name value : String)
  | baseURL (url : String)
deriving DecidableEq

/-- strings.TrimRight(s, "/"). -/
def trimRightSlashes (s : String) : String := s.dropRightWhile (· = '/')

/-- The client-level options installed by NewCodexProviderWithAzure:
the deployment base URL and (only when non-empty) an initial API key. -/
def azureClientOptions (cfg : AzureConfig) (initialToken : String) : List RequestOption :=
  [RequestOption.baseURL
      (trimRightSlashes cfg.endpoint ++ "/openai/deployments/" ++ cfg.deployment)] ++
  (if initialToken ≠ "" then [RequestOption.apiKey initialToken] else [])

/-- The per-call options built at the top of CodexProvider.Chat from the
result of the token source: the refreshed API key and, when the account ID is
non-empty, the Chatgpt-Account-Id header. -/
def chatPerCallOptions (token accountID : String) : List RequestOption :=
  [RequestOption.apiKey token] ++
  (if accountID ≠ "" then [RequestOption.header "Chatgpt-Account-Id" accountID] else [])

/-- chatAzure appends the mandatory api-version query parameter to the
options it received from Chat. -/
def chatAzureRequestOptions (cfg : AzureConfig) (opts : List RequestOption) : List RequestOption :=
  opts ++ [RequestOption.query "api-version" cfg.apiVersion]

/-- All request options in force on the Azure chat-completions call:
the client options fixed at construction plus the per-call options after
the api-version addition made by chatAzure. -/
def azureChatRequestOptions (cfg : AzureConfig) (initialToken token accountID : String) :
    List RequestOption :=
  azureClientOptions cfg initialToken ++
    chatAzureRequestOptions cfg (chatPerCallOptions token accountID)

/-- Round-trip harness: a Responses-API backend echoing each
function-call input item back as a function_call output item (the
synthetic backend response of the round-trip property). -/
def inputItemToOutputItem : InputItem → Option OutputItem
  | InputItem.functionCall c n a => some ⟨"function_call", [], c, n, a⟩
  | _ => none

/-- The synthetic backend response referencing the same call IDs as the
given input items. -/
def syntheticResponseFromInput (items : List InputItem) : CodexResponse :=
  { output := items.filterMap inputItemToOutputItem
    status := "completed"
    usage := ⟨0, 0, 0⟩ }

/-- Spec-side description of what the buildCodexParams instructions
accumulator computes: the content of the last system-role message
(default "" when there is none). -/
def lastSystemContent (messages : List Message) : String :=
  ((messages.filter (fun m => m.role = "system")).map Message.content).getLastD ""

/-- C1: whenever the ANTHROPIC_API_KEY environment variable is
non-empty, the dynamic token source returns exactly that value with no
error, and neither the keychain store nor the auth-package store is
consulted (both call counts are zero), for every configuration and every
state of the lower-priority sources. -/
theorem direct_secret_short_circuits (config : TokenManagerConfig) (env : TokenEnv)
    (h : env.anthropicApiKey ≠ "") :
    createDynamicTokenSource config env = (Except.ok env.anthropicApiKey, ⟨0, 0⟩) := by
  unfold createDynamicTokenSource
  rw [if_pos h]

/-- Concrete environment in which the direct secret is set while the
keychain and the auth package would also have answered. -/
def tokenEnvDirect : TokenEnv :=
  { anthropicApiKey := "sk-ant-direct"
    goos := "darwin"
    keychain := fun _ _ => "sk-ant-keychain"
    credsDecode := fun _ => none
    authCred := Except.ok (some ⟨"auth-token", "", "", "api_key", false⟩) }

/-- Witness for C1 at a concrete environment: the direct secret wins and
no lower-priority source is consulted. -/
theorem direct_secret_short_circuits_witness :
    createDynamicTokenSource ⟨true, ""⟩ tokenEnvDirect =
      (Except.ok "sk-ant-direct", ⟨0, 0⟩) :=
  direct_secret_short_circuits ⟨true, ""⟩ tokenEnvDirect (by decide)

/-- Characterization of createCodexTokenSource on the OAuth-refresh rung:
once the loaded credential is OAuth, inside its refresh window and holds
a refresh token, the outcome is entirely decided by the refresh
round-trip and the persist step. -/
theorem createCodexTokenSource_oauth_branch (w : CodexAuthWorld) (cred : AuthCredential)
    (hget : w.getCredential = Except.ok (some cred))
    (hm : cred.authMethod = "oauth")
    (hn : cred.needsRefresh = true)
    (hr : cred.refreshToken ≠ "") :
    createCodexTokenSource w =
      (match w.refreshAccessToken cred with
      | Except.error e =>
        { result := Except.error ("refreshing token: " ++ e), refreshCalls := 1, stored := none }
      | Except.ok refreshed =>
        match w.setCredential refreshed with
        | Except.error e =>
          { result := Except.error ("saving refreshed token: " ++ e), refreshCalls := 1, stored := none }
        | Except.ok _ =>
          { result := Except.ok (refreshed.accessToken, refreshed.accountID)
            refreshCalls := 1, stored := some refreshed }) := by
  unfold createCodexTokenSource
  rw [hget]
  show (if cred.authMethod = "oauth" ∧ cred.needsRefresh = true ∧ cred.refreshToken ≠ "" then _ else _) = _
  rw [if_pos ⟨hm, hn, hr⟩]

/-- C2: for a persisted "openai" credential that is OAuth, inside its
expiry-refresh window and holding a non-empty refresh token, the codex
token source performs exactly one refresh round-trip; when refresh and
persist both succeed it persists the refreshed credential and returns
its access token and account ID; when either the refresh or the persist
fails, the whole resolution returns an error. The dynamic variant with
no Azure configuration behaves identically. -/
theorem codex_oauth_refresh_round_trip (w : CodexAuthWorld) (cred : AuthCredential)
    (hget : w.getCredential = Except.ok (some cred))
    (hm : cred.authMethod = "oauth")
    (hn : cred.needsRefresh = true)
    (hr : cred.refreshToken ≠ "") :
    (createCodexTokenSource w).refreshCalls = 1 ∧
    (∀ e, w.refreshAccessToken cred = Except.error e →
        (createCodexTokenSource w).result = Except.error ("refreshing token: " ++ e) ∧
        (createCodexTokenSource w).stored = none) ∧
    (∀ rc, w.refreshAccessToken cred = Except.ok rc →
        (∀ e, w.setCredential rc = Except.error e →
            (createCodexTokenSource w).result = Except.error ("saving refreshed token: " ++ e) ∧
            (createCodexTokenSource w).stored = none) ∧
        (w.setCredential rc = Except.ok () →
            (createCodexTokenSource w).result = Except.ok (rc.accessToken, rc.accountID) ∧
            (createCodexTokenSource w).stored = some rc)) ∧
    (∀ az, createDynamicCodexTokenSource none az w = createCodexTokenSource w) := by
  have hbr := createCodexTokenSource_oauth_branch w cred hget hm hn hr
  refine ⟨?_, ?_, ?_, ?_⟩
  · rw [hbr]
    cases hrf : w.refreshAccessToken cred with
    | error e => rfl
    | ok rc =>
      cases hst : w.setCredential rc with
      | error e => dsimp only; rw [hst]
      | ok u => dsimp only; rw [hst]
  · intro e he
    rw [hbr, he]
    exact ⟨rfl, rfl⟩
  · intro rc hrc
    constructor
    · intro e he
      rw [hbr, hrc]
      dsimp only
      rw [he]
      exact ⟨rfl, rfl⟩
    · intro hok
      rw [hbr, hrc]
      dsimp only
      rw [hok]
      exact ⟨rfl, rfl⟩
  · intro az
    unfold createDynamicCodexTokenSource createCodexTokenSource
    rfl

/-- The stale OAuth credential of the C2 witness world. -/
def credOauthStale : AuthCredential :=
  { accessToken := "tok-old", refreshToken := "refresh-tok", accountID := "acct-old"
    authMethod := "oauth", needsRefresh := true }

/-- The refreshed credential returned by the refresh round-trip of the
witness world. -/
def credOauthFresh : AuthCredential :=
  { accessToken := "tok-new", refreshToken := "refresh-tok-2", accountID := "acct-new"
    authMethod := "oauth", needsRefresh := false }

/-- Witness world: a stale OAuth credential, a refresh round-trip that
succeeds, and a persist step that succeeds. -/
def codexWorldRefresh : CodexAuthWorld :=
  { getCredential := Except.ok (some credOauthStale)
    refreshAccessToken := fun _ => Except.ok credOauthFresh
    setCredential := fun _ => Except.ok () }

/-- Witness for C2 at a concrete world: exactly one refresh, the
refreshed credential is persisted, and its token and account ID are
returned. -/
theorem codex_oauth_refresh_round_trip_witness :
    (createCodexTokenSource codexWorldRefresh).result = Except.ok ("tok-new", "acct-new") ∧
    (createCodexTokenSource codexWorldRefresh).refreshCalls = 1 ∧
    (createCodexTokenSource codexWorldRefresh).stored = some credOauthFresh := by
  have h := codex_oauth_refresh_round_trip codexWorldRefresh credOauthStale rfl rfl rfl (by decide)
  have hsucc := (h.2.2.1 credOauthFresh rfl).2 rfl
  exact ⟨hsucc.1, h.1, hsucc.2⟩

/-- The buildCodexParams instructions accumulator keeps only the last
content of the last system message: overwriting, not concatenating. -/
theorem codexInstructionsAcc_eq_getLastD (messages : List Message) (acc : String) :
    codexInstructionsAcc messages acc =
      ((messages.filter (fun m => m.role = "system")).map Message.content).getLastD acc := by
  induction messages generalizing acc with
  | nil => rfl
  | cons m rest ih =>
    by_cases h : m.role = "system"
    · simp only [codexInstructionsAcc, h, if_pos, List.filter_cons_of_pos, List.map_cons,
        List.getLastD_cons, decide_eq_true_eq]
      exact ih m.content
    · simp only [codexInstructionsAcc, h, if_neg, List.filter_cons_of_neg, decide_eq_true_eq,
        not_false_iff]
      exact ih acc

/-- A marshalling oracle for concrete fixtures (its output never matters
for the properties below). -/
def encNull : JsonEncoder := fun _ => "null"

/-- A decoding oracle that rejects every payload, the behavior of
`json.Unmarshal` on the malformed payloads used in the fixtures. -/
def decFail : JsonDecoder := fun _ => none

/-- Empty Chat options. -/
def noOptions : ChatOptions := ⟨none, none⟩

/-- First of two system messages. -/
def sysMsgA : Message := ⟨"system", "A", "", []⟩

/-- Second of two system messages. -/
def sysMsgB : Message := ⟨"system", "B", "", []⟩

/-- C3 counterexample: with two system messages "A" and "B", the
response-stream translator sets instructions to "B" alone — the later
system message overwrites the earlier instead of being concatenated
with it ("B" is not the concatenation "AB", and "A" is dropped). -/
theorem codex_instructions_not_concatenated :
    (buildCodexParams encNull [sysMsgA, sysMsgB] [] "gpt-4o" noOptions).instructions = "B" ∧
    ("B" : String) ≠ "A" ++ "B" := by
  exact ⟨by decide, by decide⟩

/-- C3 amended: the instructions field equals the content of the LAST
system message when that content is non-empty, and the fixed default
string otherwise; in particular it is never omitted or empty. -/
theorem codex_instructions_last_system_or_default (enc : JsonEncoder) (messages : List Message)
    (tools : List ToolDefinition) (model : String) (options : ChatOptions) :
    (buildCodexParams enc messages tools model options).instructions =
      (if lastSystemContent messages ≠ "" then lastSystemContent messages
       else defaultCodexInstructions) ∧
    (buildCodexParams enc messages tools model options).instructions ≠ "" := by
  have hacc : codexInstructionsAcc messages "" = lastSystemContent messages :=
    codexInstructionsAcc_eq_getLastD messages ""
  constructor
  · show (if codexInstructionsAcc messages "" ≠ "" then codexInstructionsAcc messages ""
      else defaultCodexInstructions) = _
    rw [hacc]
  · show (if codexInstructionsAcc messages "" ≠ "" then codexInstructionsAcc messages ""
      else defaultCodexInstructions) ≠ ""
    by_cases h : codexInstructionsAcc messages "" ≠ ""
    · rw [if_pos h]; exact h
    · rw [if_neg h]; decide

/-- C4 amended: on an argument payload that fails to decode as JSON, the
direct-message and response-stream normalizers keep the invocation and
wrap the raw payload as the single-key mapping raw -> payload, while the
enterprise chat-completion normalizer keeps the invocation but ignores
the decode error, leaving Arguments nil. No normalizer discards the
invocation or raises an error. -/
theorem malformed_tool_arguments_handling (dec : JsonDecoder) (id name payload : String)
    (hfail : dec payload = none) :
    (parseClaudeResponse dec
        ⟨[⟨"tool_use", "", id, name, payload⟩], "end_turn", ⟨0, 0⟩⟩).toolCalls
      = [⟨id, name, some [("raw", JsonVal.str payload)]⟩] ∧
    (parseCodexResponse dec
        ⟨[⟨"function_call", [], id, name, payload⟩], "completed", ⟨0, 0, 0⟩⟩).toolCalls
      = [⟨id, name, some [("raw", JsonVal.str payload)]⟩] ∧
    (payload ≠ "" →
      (parseChatCompletionResponse dec
          ⟨[⟨⟨"", [⟨id, ⟨name, payload⟩⟩]⟩, "tool_calls"⟩], ⟨0, 0, 0⟩⟩).toolCalls
        = [⟨id, name, none⟩]) := by
  refine ⟨?_, ?_, ?_⟩
  · simp [parseClaudeResponse, claudeToolCalls, wrapArgs, hfail]
  · simp [parseCodexResponse, codexOutputToolCalls, wrapArgs, hfail]
  · intro hp
    simp [parseChatCompletionResponse, chatToolCallArgs, hp, hfail]

/-- Witness for C4 at the scenario given in the spec (payload "\x7bbad"): raw
wrapping in the Claude and Codex normalizers, nil Arguments in the
enterprise one. -/
theorem malformed_tool_arguments_handling_witness :
    (parseClaudeResponse decFail
        ⟨[⟨"tool_use", "", "call_1", "get_weather", "\x7bbad"⟩], "end_turn", ⟨0, 0⟩⟩).toolCalls
      = [⟨"call_1", "get_weather", some [("raw", JsonVal.str "\x7bbad")]⟩] ∧
    (parseCodexResponse decFail
        ⟨[⟨"function_call", [], "call_1", "get_weather", "\x7bbad"⟩], "completed", ⟨0, 0, 0⟩⟩).toolCalls
      = [⟨"call_1", "get_weather", some [("raw", JsonVal.str "\x7bbad")]⟩] ∧
    (parseChatCompletionResponse decFail
        ⟨[⟨⟨"", [⟨"call_1", ⟨"get_weather", "\x7bbad"⟩⟩]⟩, "tool_calls"⟩], ⟨0, 0, 0⟩⟩).toolCalls
      = [⟨"call_1", "get_weather", none⟩] := by
  have h := malformed_tool_arguments_handling decFail "call_1" "get_weather" "\x7bbad" rfl
  exact ⟨h.1, h.2.1, h.2.2 (by decide)⟩

/-- The enterprise chat completion carrying the scenario with
malformed tool arguments (an open brace followed by the word bad). -/
def chatRespBadArgs : ChatCompletion :=
  { choices :=
      [{ message := { content := "", toolCalls := [⟨"call_1", ⟨"get_weather", "\x7bbad"⟩⟩] }
         finishReason := "tool_calls" }]
    usage := ⟨0, 0, 0⟩ }

/-- C4 counterexample: the enterprise chat-completion normalizer does
NOT wrap the malformed payload under a "raw" key — the resulting
Arguments field of the resulting ToolCall is nil, not the single-key
raw mapping. -/
theorem chat_args_not_raw_wrapped :
    (parseChatCompletionResponse decFail chatRespBadArgs).toolCalls.map ToolCall.arguments
      = [none] ∧
    (none : Option ArgsMap) ≠ some [("raw", JsonVal.str "\x7bbad")] := by
  constructor
  · rfl
  · simp

/-- C5 amended: the direct-message and response-stream normalizers
always produce a canonical finish reason (and map unknown backend stop
reasons to "stop"); the enterprise chat-completion normalizer passes the
backend finish reason through verbatim whenever the choice list is
non-empty. -/
theorem finish_reason_mapping (dec : JsonDecoder) (m : ClaudeMessageResp) (c : CodexResponse)
    (a : ChatCompletion) :
    (parseClaudeResponse dec m).finishReason ∈ (["stop", "tool_calls", "length"] : List String) ∧
    (parseCodexResponse dec c).finishReason ∈ (["stop", "tool_calls", "length"] : List String) ∧
    (∀ s : String, s ≠ "tool_use" → s ≠ "max_tokens" → claudeFinishReason s = "stop") ∧
    (∀ ch rest, a.choices = ch :: rest →
      (parseChatCompletionResponse dec a).finishReason = ch.finishReason) := by
  refine ⟨?_, ?_, ?_, ?_⟩
  · show claudeFinishReason m.stopReason ∈ _
    unfold claudeFinishReason
    split_ifs <;> decide
  · show codexFinishReason (codexOutputToolCalls dec c.output) c.status ∈ _
    unfold codexFinishReason
    split_ifs <;> decide
  · intro s h1 h2
    unfold claudeFinishReason
    rw [if_neg h1, if_neg h2]
    split_ifs <;> rfl
  · intro ch rest hch
    unfold parseChatCompletionResponse
    rw [hch]

/-- The enterprise chat completion whose backend finish reason is the
non-canonical value "content_filter". -/
def chatRespContentFilter : ChatCompletion :=
  { choices := [{ message := { content := "partial", toolCalls := [] }
                  finishReason := "content_filter" }]
    usage := ⟨0, 0, 0⟩ }

/-- C5 counterexample: the enterprise normalizer forwards the unmapped
backend reason "content_filter" instead of collapsing it to one of the
four canonical values (in particular it is not mapped to "stop"). -/
theorem chat_finish_reason_passthrough :
    (parseChatCompletionResponse decFail chatRespContentFilter).finishReason = "content_filter" ∧
    "content_filter" ∉ (["stop", "tool_calls", "length", "error"] : List String) := by
  exact ⟨rfl, by decide⟩

/-- Witness for the C5 amended statement at concrete responses: an unknown
Anthropic stop reason lands on "stop", and the enterprise pass-through
is exercised on a non-empty choice list. -/
theorem finish_reason_mapping_witness :
    claudeFinishReason "weird_reason" = "stop" ∧
    (parseChatCompletionResponse decFail chatRespContentFilter).finishReason = "content_filter" := by
  have h := finish_reason_mapping decFail ⟨[], "weird_reason", ⟨1, 2⟩⟩ ⟨[], "completed", ⟨0, 0, 0⟩⟩
    chatRespContentFilter
  exact ⟨h.2.2.1 "weird_reason" (by decide) (by decide), h.2.2.2 _ [] rfl⟩

/-- C6 amended: the response-stream and enterprise normalizers populate
Usage exactly when the backend reports a positive total token count;
the direct-message (Claude) normalizer always populates Usage, filling
it with zeros when the backend reported zero tokens. -/
theorem usage_population (dec : JsonDecoder) (m : ClaudeMessageResp) (c : CodexResponse)
    (a : ChatCompletion) :
    (parseClaudeResponse dec m).usage =
      some ⟨m.usage.inputTokens, m.usage.outputTokens,
        m.usage.inputTokens + m.usage.outputTokens⟩ ∧
    ((parseCodexResponse dec c).usage ≠ none ↔ c.usage.totalTokens > 0) ∧
    (∀ ch rest, a.choices = ch :: rest →
      ((parseChatCompletionResponse dec a).usage ≠ none ↔ a.usage.totalTokens > 0)) := by
  refine ⟨rfl, ?_, ?_⟩
  · show (if c.usage.totalTokens > 0 then some _ else none) ≠ none ↔ _
    by_cases h : c.usage.totalTokens > 0
    · simp [h]
    · simp [h]
  · intro ch rest hch
    unfold parseChatCompletionResponse
    rw [hch]
    show (if a.usage.totalTokens > 0 then some _ else none) ≠ none ↔ _
    by_cases h : a.usage.totalTokens > 0
    · simp [h]
    · simp [h]

/-- The Anthropic response whose backend-reported usage is zero. -/
def claudeRespZeroUsage : ClaudeMessageResp := ⟨[], "end_turn", ⟨0, 0⟩⟩

/-- C6 counterexample: on a backend-reported total of zero the Claude
normalizer returns a zero-filled Usage record instead of omitting it. -/
theorem claude_usage_zero_filled :
    (parseClaudeResponse decFail claudeRespZeroUsage).usage = some ⟨0, 0, 0⟩ ∧
    some (⟨0, 0, 0⟩ : UsageInfo) ≠ none := by
  exact ⟨rfl, by decide⟩

/-- Witness for the C6 amended statement at concrete responses: zero-total
Codex and enterprise responses omit Usage, the Claude response does not. -/
theorem usage_population_witness :
    (parseCodexResponse decFail ⟨[], "completed", ⟨0, 0, 0⟩⟩).usage = none ∧
    (parseChatCompletionResponse decFail chatRespContentFilter).usage = none ∧
    (parseClaudeResponse decFail claudeRespZeroUsage).usage = some ⟨0, 0, 0⟩ := by
  have h := usage_population decFail claudeRespZeroUsage ⟨[], "completed", ⟨0, 0, 0⟩⟩
    chatRespContentFilter
  refine ⟨?_, ?_, h.1⟩
  · by_contra hne
    exact absurd (h.2.1.mp hne) (by decide)
  · by_contra hne
    exact absurd ((h.2.2 _ [] rfl).mp hne) (by decide)

/-- C10: an enterprise chat completion with an empty choice list
normalizes to the safe error response: empty content, no tool calls,
finish reason "error", and no Usage — even when the raw response carried
a non-zero usage record. -/
theorem chat_empty_choices_error (dec : JsonDecoder) (resp : ChatCompletion)
    (h : resp.choices = []) :
    parseChatCompletionResponse dec resp =
      { content := "", toolCalls := [], finishReason := "error", usage := none } := by
  unfold parseChatCompletionResponse
  rw [h]

/-- An enterprise chat completion with no choices but non-zero usage. -/
def chatRespNoChoices : ChatCompletion := ⟨[], ⟨5, 7, 12⟩⟩

/-- Witness for C10 at a concrete response. -/
theorem chat_empty_choices_error_witness :
    parseChatCompletionResponse decFail chatRespNoChoices =
      { content := "", toolCalls := [], finishReason := "error", usage := none } :=
  chat_empty_choices_error decFail chatRespNoChoices rfl

/-- C7 amended: whenever at least one of the endpoint, deployment or
API-version variables is set and any required variable is empty, the
enterprise configuration load fails with an error built from exactly the
missing variable names; but the presence probe ignores the scope
variable, so an environment where only the scope is set loads silently
as non-Azure instead of failing. -/
theorem azure_config_all_or_nothing (env : AzureEnv)
    (hpresent : ¬ (env.endpoint = "" ∧ env.deployment = "" ∧ env.apiVersion = ""))
    (hincomplete : env.endpoint = "" ∨ env.deployment = "" ∨ env.apiVersion = "" ∨ env.scope = "") :
    LoadAzureConfigFromEnv env = Except.error (azureMissingMessage (azureMissingVars env)) ∧
    (∀ v, v ∈ azureMissingVars env ↔
      ((v = "AZURE_OPENAI_ENDPOINT" ∧ env.endpoint = "") ∨
       (v = "AZURE_OPENAI_DEPLOYMENT" ∧ env.deployment = "") ∨
       (v = "AZURE_OPENAI_API_VERSION" ∧ env.apiVersion = "") ∨
       (v = "AZURE_OPENAI_SCOPE" ∧ env.scope = ""))) := by
  have hmiss : azureMissingVars env ≠ [] := by
    unfold azureMissingVars
    rcases hincomplete with h | h | h | h <;> simp [h]
  constructor
  · unfold LoadAzureConfigFromEnv
    rw [if_neg hpresent, if_pos hmiss]
  · intro v
    unfold azureMissingVars
    by_cases h1 : env.endpoint = "" <;> by_cases h2 : env.deployment = "" <;>
      by_cases h3 : env.apiVersion = "" <;> by_cases h4 : env.scope = "" <;>
      simp [h1, h2, h3, h4]

/-- Environment with only the Azure scope variable set. -/
def azureEnvScopeOnly : AzureEnv :=
  ⟨"", "", "", "https://cognitiveservices.azure.com/.default", "", ""⟩

/-- C7 counterexample: with only the scope set (so some but not all of
the required bundle is present), the load succeeds as "not Azure"
instead of failing and naming the missing variables. -/
theorem azure_partial_config_silently_ignored :
    LoadAzureConfigFromEnv azureEnvScopeOnly = Except.ok none := by
  rfl

/-- The scenario environment of the spec: endpoint and deployment set, API
version and scope empty. -/
def azureEnvPartial : AzureEnv :=
  ⟨"https://res.openai.azure.com", "gpt-4o", "", "", "", ""⟩

/-- Witness for C7 at the scenario from the spec: the load fails and the error
names both missing variables. -/
theorem azure_config_all_or_nothing_witness :
    LoadAzureConfigFromEnv azureEnvPartial =
      Except.error "missing required Azure OpenAI environment variables: [AZURE_OPENAI_API_VERSION AZURE_OPENAI_SCOPE]\nPlease set them in your .env file. See .env.example for reference" := by
  have h := (azure_config_all_or_nothing azureEnvPartial (by decide) (by decide)).1
  exact h.trans (by rfl)

/-- C8: on every Azure chat-completion call, whatever the token source
produced, the configured API version travels as the api-version query
parameter; no request header is named api-version (the only possible
header is Chatgpt-Account-Id), and api-version is the only query
parameter. -/
theorem azure_api_version_query_not_header (cfg : AzureConfig)
    (initialToken token accountID : String) :
    RequestOption.query "api-version" cfg.apiVersion ∈
      azureChatRequestOptions cfg initialToken token accountID ∧
    (∀ n v, RequestOption.header n v ∈ azureChatRequestOptions cfg initialToken token accountID →
      n = "Chatgpt-Account-Id") ∧
    (∀ n v, RequestOption.query n v ∈ azureChatRequestOptions cfg initialToken token accountID →
      n = "api-version" ∧ v = cfg.apiVersion) := by
  unfold azureChatRequestOptions azureClientOptions chatAzureRequestOptions chatPerCallOptions
  refine ⟨?_, ?_, ?_⟩
  · by_cases h1 : initialToken ≠ "" <;> by_cases h2 : accountID ≠ "" <;> simp [h1, h2]
  · intro n v hmem
    by_cases h1 : initialToken ≠ "" <;> by_cases h2 : accountID ≠ "" <;>
      simp [h1, h2] at hmem <;> tauto
  · intro n v hmem
    by_cases h1 : initialToken ≠ "" <;> by_cases h2 : accountID ≠ "" <;>
      simp [h1, h2] at hmem <;> tauto

/-- Sample Azure configuration for witnesses. -/
def azureCfgSample : AzureConfig :=
  { endpoint := "https://res.openai.azure.com/", deployment := "gpt-4o"
    apiVersion := "2024-02-15-preview", scope := "https://cognitiveservices.azure.com/.default"
    managedIdentityID := "", useManagedIdentity := true, verbose := false }

/-- Witness for C8 at a concrete configuration and token-source result. -/
theorem azure_api_version_query_not_header_witness :
    RequestOption.query "api-version" "2024-02-15-preview" ∈
      azureChatRequestOptions azureCfgSample "" "azure-token" "acct" := by
  exact (azure_api_version_query_not_header azureCfgSample "" "azure-token" "acct").1

/-- Echoing a translated function-call list through the synthetic
backend and the Codex normalizer reproduces one ToolCall per input call,
in order. -/
theorem codexOutputToolCalls_on_echo (dec : JsonDecoder) (enc : JsonEncoder)
    (tcs : List ToolCall) :
    codexOutputToolCalls dec
      (tcs.filterMap (fun tc =>
        inputItemToOutputItem (InputItem.functionCall tc.id tc.name (enc tc.arguments))))
      = tcs.map (fun tc => ⟨tc.id, tc.name, some (wrapArgs dec (enc tc.arguments))⟩) := by
  induction tcs with
  | nil => rfl
  | cons tc rest ih =>
    calc codexOutputToolCalls dec
          ((tc :: rest).filterMap (fun tc =>
            inputItemToOutputItem (InputItem.functionCall tc.id tc.name (enc tc.arguments))))
        = (⟨tc.id, tc.name, some (wrapArgs dec (enc tc.arguments))⟩ : ToolCall) ::
            codexOutputToolCalls dec
              (rest.filterMap (fun tc =>
                inputItemToOutputItem (InputItem.functionCall tc.id tc.name (enc tc.arguments)))) := rfl
      _ = (⟨tc.id, tc.name, some (wrapArgs dec (enc tc.arguments))⟩ : ToolCall) ::
            rest.map (fun tc => ⟨tc.id, tc.name, some (wrapArgs dec (enc tc.arguments))⟩) := by
          rw [ih]
      _ = (tc :: rest).map (fun tc => ⟨tc.id, tc.name, some (wrapArgs dec (enc tc.arguments))⟩) := rfl

/-- The echoed normalization preserves the call IDs, in order. -/
theorem echoed_ids (dec : JsonDecoder) (enc : JsonEncoder) (tcs : List ToolCall) :
    (codexOutputToolCalls dec
      ((tcs.map (fun tc => InputItem.functionCall tc.id tc.name (enc tc.arguments))).filterMap
        inputItemToOutputItem)).map ToolCall.id = tcs.map ToolCall.id := by
  rw [List.filterMap_map]
  rw [show (inputItemToOutputItem ∘ fun tc : ToolCall =>
      InputItem.functionCall tc.id tc.name (enc tc.arguments)) =
      (fun tc : ToolCall =>
        inputItemToOutputItem (InputItem.functionCall tc.id tc.name (enc tc.arguments))) from rfl]
  rw [codexOutputToolCalls_on_echo dec enc tcs, List.map_map]
  rfl

/-- C9: translating a follow-up assistant Message that carries the tool
calls of a canonical LLMResponse through the response-stream translator,
then normalizing a synthetic backend response that echoes the same call
IDs, yields back exactly the same ToolCall.ID values in the same order,
for every assistant text, model, tool list, option set, and JSON
encoder/decoder. -/
theorem codex_tool_call_id_round_trip (enc : JsonEncoder) (dec : JsonDecoder)
    (resp : LLMResponse) (content model : String) (tools : List ToolDefinition)
    (options : ChatOptions) :
    ((parseCodexResponse dec (syntheticResponseFromInput
        (buildCodexParams enc [⟨"assistant", content, "", resp.toolCalls⟩] tools model
          options).input)).toolCalls).map ToolCall.id
      = resp.toolCalls.map ToolCall.id := by
  have hitems : (buildCodexParams enc [⟨"assistant", content, "", resp.toolCalls⟩] tools model
      options).input = messageInputItems enc ⟨"assistant", content, "", resp.toolCalls⟩ := by
    simp [buildCodexParams, codexInputItems]
  rw [hitems]
  by_cases hempty : resp.toolCalls.isEmpty
  · have hnil : resp.toolCalls = [] := List.isEmpty_iff.mp hempty
    simp [messageInputItems, hnil, syntheticResponseFromInput, parseCodexResponse,
      inputItemToOutputItem, codexOutputToolCalls]
  · by_cases hc : content = ""
    · rw [show messageInputItems enc ⟨"assistant", content, "", resp.toolCalls⟩ =
          resp.toolCalls.map (fun tc => InputItem.functionCall tc.id tc.name (enc tc.arguments))
        from by simp [messageInputItems, hempty, hc]]
      exact echoed_ids dec enc resp.toolCalls
    · rw [show messageInputItems enc ⟨"assistant", content, "", resp.toolCalls⟩ =
          InputItem.message "assistant" content ::
            resp.toolCalls.map (fun tc => InputItem.functionCall tc.id tc.name (enc tc.arguments))
        from by simp [messageInputItems, hempty, hc]]
      have hdrop : syntheticResponseFromInput
          (InputItem.message "assistant" content ::
            resp.toolCalls.map (fun tc => InputItem.functionCall tc.id tc.name (enc tc.arguments)))
          = syntheticResponseFromInput
            (resp.toolCalls.map (fun tc =>
              InputItem.functionCall tc.id tc.name (enc tc.arguments))) := rfl
      rw [hdrop]
      exact echoed_ids dec enc resp.toolCalls
